import Mathlib

/-!
Shallow embedding of `src/svg/svg.py` (the Cayley logo SVG generator).

The script is straight-line Python: it computes 6 ring-node positions and
2 fan-node positions, selects ring edges by a hand-coded rule chain,
draws lines and circles into an svgwrite `Drawing`, saves a static file,
registers flash animations, rewrites the animations' begin attributes to
loop, and saves an animated file.

Conventions of the embedding:
* Real-valued geometry (Python floats fed to `math.cos`/`math.sin`) is
  modelled over `ℝ`.
* Colors are the literal strings of the source.
* Stroke widths are exact rationals (the source literal is `2.5`).
* Animation time offsets are modelled in hundredths of a second (`ℕ`):
  the source formats every begin time with `"+%0.2fs" % start` and only
  ever uses multiples of 0.5 seconds, so this is exact; the source's
  `start + 1.0` becomes `start + 100`.
* The svgwrite library is external to the repository and the spec treats
  it as an opaque rendering sink; where its behavior decides a claim
  (canvas size, element ids) it is modelled from the spec's words.
-/

namespace CayleySVG

/-- `node_radius = 15` (svg.py line 22). -/
def node_radius : ℚ := 15

/-- `big_radius = 50` (svg.py line 23). -/
def big_radius : ℝ := 50

/-- `fan_dist = 90` (svg.py line 24). -/
def fan_dist : ℝ := 90

/-- `center = (105,65)` (svg.py line 25). -/
def center : ℝ × ℝ := (105, 65)

/-- `edge_stroke = 2.5` (svg.py line 26); exact rational. -/
def edge_stroke : ℚ := 2.5

/-- `b = '#4285F4'` (svg.py line 30). -/
def b : String := "#4285F4"

/-- `r = '#DB4437'` (svg.py line 31). -/
def r : String := "#DB4437"

/-- `g = '#0F9D58'` (svg.py line 32); also the flash highlight color. -/
def g : String := "#0F9D58"

/-- `y = '#F4B400'` (svg.py line 33). -/
def y : String := "#F4B400"

/-- `n = '#999999'` (svg.py line 34), the neutral gray. -/
def n : String := "#999999"

/-- `center_colors = [b, r, y, b, r, y]` (svg.py line 36). -/
def center_colors : List String := [b, r, y, b, r, y]

/-- Final value of `edge_color`: assigned `'#555555'` at line 27 and then
reassigned `n` at line 37 before any use; only the final value is ever read. -/
def edge_color : String := n

/-- Final value of `fan_color`: assigned `'#aa0000'` at line 28 and then
reassigned `n` at line 38 before any use; only the final value is ever read. -/
def fan_color : String := n

/-- The body of the loop in `center_list` (svg.py lines 44-46): the point
appended for index `i`, namely
`(x + cos(2*pi*i/6.0)*big_r, y - sin(2*pi*i/6.0)*big_r)`. -/
noncomputable def ring_point (c : ℝ × ℝ) (big_r : ℝ) (i : ℕ) : ℝ × ℝ :=
  (c.1 + Real.cos (2 * Real.pi * i / 6) * big_r,
   c.2 - Real.sin (2 * Real.pi * i / 6) * big_r)

/-- `center_list(center, big_r)` (svg.py lines 40-47): for `i in range(0,6)`
append the ring point for `i`. -/
noncomputable def center_list (c : ℝ × ℝ) (big_r : ℝ) : List (ℝ × ℝ) :=
  (List.range 6).map (ring_point c big_r)

/-- `ring_centers = center_list(center, big_radius)` (svg.py line 50). -/
noncomputable def ring_centers : List (ℝ × ℝ) := center_list center big_radius

/-- `outer_left = (cx - fan_dist, cy)` (svg.py line 51). -/
noncomputable def outer_left : ℝ × ℝ := (center.1 - fan_dist, center.2)

/-- `outer_right = (cx + fan_dist, cy)` (svg.py line 52). -/
noncomputable def outer_right : ℝ × ℝ := (center.1 + fan_dist, center.2)

/-- `left = ring_centers[3]` (svg.py line 53); the list has 6 elements so the
index is in range and the default is never taken. -/
noncomputable def left : ℝ × ℝ := ring_centers.getD 3 (0, 0)

/-- `right = ring_centers[0]` (svg.py line 54). -/
noncomputable def right : ℝ × ℝ := ring_centers.getD 0 (0, 0)

/-- A line element: endpoints, stroke color, stroke width, as produced by
`dwg.line(p1, p2)` followed by `.stroke(color, width)`. -/
structure Line where
  p1 : ℝ × ℝ
  p2 : ℝ × ℝ
  strokeColor : String
  strokeWidth : ℚ

/-- The skip-rule chain of the ring-edge loop (svg.py lines 64-77), in source
order; `true` means the pair `(i, j)` survives every `continue` and an edge is
appended. -/
def includePair (i j : ℕ) : Bool :=
  if i > j || i == j then false
  else if i % 3 == j % 3 then false
  else if i % 3 == 1 && j % 3 == 2 then false
  else if j % 3 == 1 && i % 3 == 2 then false
  else if i == 0 && j == 3 then false
  else if i == 3 && j == 0 then false
  else true

/-- The index pairs for which the ring-edge loop (svg.py lines 64-80) appends
an edge, in the order the doubly nested `for i` / `for j` loop visits them. -/
def ringEdgePairs : List (ℕ × ℕ) :=
  (List.range 6).flatMap fun i =>
    ((List.range 6).filter fun j => includePair i j).map fun j => (i, j)

/-- The edge appended for a surviving pair `(i, j)` (svg.py lines 78-80):
a line from `ring_centers[i]` to `ring_centers[j]` with the default stroke. -/
noncomputable def mkRingLine (i j : ℕ) : Line :=
  ⟨ring_centers.getD i (0, 0), ring_centers.getD j (0, 0), edge_color, edge_stroke⟩

/-- `all_lines` (svg.py lines 56-80): the two fan edges (outer_left→left,
outer_right→right, lines 57-62), then the ring edges in loop order. -/
noncomputable def all_lines : List Line :=
  ⟨outer_left, left, edge_color, edge_stroke⟩ ::
  ⟨outer_right, right, edge_color, edge_stroke⟩ ::
  ringEdgePairs.map fun p => mkRingLine p.1 p.2

/-- A circle element, as produced by `dwg.circle(center, radius, fill=...)`. -/
structure Circle where
  c : ℝ × ℝ
  radius : ℚ
  fill : String

/-- `circle_elems` (svg.py lines 82-85): for `i, c in enumerate(ring_centers)`
add a circle at `c` with radius `node_radius` and fill `center_colors[i]`;
both lists have length 6, so pairing them elementwise is the loop. -/
noncomputable def circle_elems : List Circle :=
  List.zipWith (fun c col => Circle.mk c node_radius col) ring_centers center_colors

/-- `left_circle` (svg.py line 87). -/
noncomputable def left_circle : Circle := ⟨outer_left, node_radius, fan_color⟩

/-- `right_circle` (svg.py line 88). -/
noncomputable def right_circle : Circle := ⟨outer_right, node_radius, fan_color⟩

/-- The element an animation is attached to (`href=element` in `flash`).
The script only ever passes `left_circle`, `right_circle`, or `all_lines[k]`;
a line is identified by its index in `all_lines`. -/
inductive TargetRef where
  | leftCircle : TargetRef
  | rightCircle : TargetRef
  | lineAt : ℕ → TargetRef
deriving DecidableEq, Repr

/-- One `svgwrite.animate.Animate` element as configured by `flash`
(svg.py lines 97-112): the animated property, `from`/`to` colors, and the
`begin`/`dur` attribute strings. -/
structure AnimStep where
  prop : String
  fromColor : String
  toColor : String
  begin : String
  dur : String
  href : TargetRef
deriving DecidableEq, Repr

/-- `"+%0.2fs" % start` (svg.py lines 100 and 108) with `start` in hundredths
of a second: sign, integer part, dot, two fractional digits, `s`. -/
def fmtBegin (t : ℕ) : String :=
  "+" ++ toString (t / 100) ++ "." ++
    (if t % 100 < 10 then "0" ++ toString (t % 100) else toString (t % 100)) ++ "s"

/-- `flash(element, orig_color, start, is_line)` (svg.py lines 92-113):
builds two Animate steps on the element's fill (stroke when `is_line`):
`orig_color → g` beginning at `start` for 1.0s, then `g → orig_color`
beginning at `start + 1.0` for 1.2s. Both are appended (to `dwg` and to
`anims`) in that order; the second is returned. `start` is in hundredths of
a second, so `start + 1.0` is `start + 100`. -/
def flash (element : TargetRef) (orig_color : String) (start : ℕ)
    (is_line : Bool) : List AnimStep × AnimStep :=
  let prop := if is_line then "stroke" else "fill"
  let a1 : AnimStep :=
    ⟨prop, orig_color, g, fmtBegin start, "1.0s", element⟩
  let a2 : AnimStep :=
    ⟨prop, g, orig_color, fmtBegin (start + 100), "1.2s", element⟩
  ([a1, a2], a2)

/-- The 16 `flash(...)` calls of svg.py lines 116-131, in source order:
(target, orig_color, start in hundredths of a second, is_line). -/
def scriptCalls : List (TargetRef × String × ℕ × Bool) :=
  [(.leftCircle, n, 0, false),
   (.lineAt 0, n, 50, true),
   (.lineAt 7, n, 100, true),
   (.lineAt 3, n, 150, true),
   (.lineAt 9, n, 100, true),
   (.lineAt 5, n, 150, true),
   (.lineAt 1, n, 200, true),
   (.rightCircle, n, 250, false),
   (.leftCircle, n, 350, false),
   (.lineAt 0, n, 400, true),
   (.lineAt 6, n, 450, true),
   (.lineAt 4, n, 500, true),
   (.lineAt 8, n, 450, true),
   (.lineAt 2, n, 500, true),
   (.lineAt 1, n, 550, true),
   (.rightCircle, n, 600, false)]

/-- The contents of the `anims` list after the call sequence of svg.py
lines 116-131: each call appends its two steps. -/
def scriptAnims : List AnimStep :=
  scriptCalls.flatMap fun c => (flash c.1 c.2.1 c.2.2.1 c.2.2.2).1

/-- `final` (svg.py line 131): the step returned by the last `flash` call,
i.e. the second step of `flash(right_circle, n, 6.0)`. -/
def finalStep : AnimStep := (flash .rightCircle n 600 false).2

/-- The body of the loop at svg.py lines 133-134:
`anim["begin"] = anim["begin"] + "; " + final.get_id() + ".end" + anim["begin"]`.
`final.get_id()` is an svgwrite call. Modelled from the spec: the element id
of the final step is an opaque string `final_id` (svgwrite assigns it; the
spec only calls it `<final_step_id>`). -/
def rewriteBegin (final_id : String) (a : AnimStep) : AnimStep :=
  { a with begin := a.begin ++ "; " ++ final_id ++ ".end" ++ a.begin }

/-- An element added to `dwg`: a line, a circle, or an animation. -/
inductive Element where
  | line : Line → Element
  | circle : Circle → Element
  | anim : AnimStep → Element

/-- Whether an element is an animation entry. -/
def Element.isAnim : Element → Bool
  | .anim _ => true
  | _ => false

/-- Number of animation entries among a document's elements. -/
def countAnims (l : List Element) : ℕ := (l.filter Element.isAnim).length

/-- The svgwrite drawing document. Modelled from the spec: the spec treats
svgwrite as an opaque sink that records the canvas size and the added
elements in order ("Canvas dimensions: 210 × 130"), so a document is its
size plus its ordered element list. -/
structure SVGDoc where
  size : ℕ × ℕ
  elements : List Element

/-- `dwg` as of the first save `dwg.saveas("cayley.svg")` (svg.py line 115):
size `(210, 130)` from `svgwrite.Drawing((210,130))` (line 19), and the
elements added so far — all lines (lines 56-80), then the 6 ring circles
(lines 82-85), then the two fan circles (lines 87-88). No animation has been
registered yet. -/
noncomputable def staticDoc : SVGDoc :=
  ⟨(210, 130),
   all_lines.map Element.line ++
     (circle_elems ++ [left_circle, right_circle]).map Element.circle⟩

/-- `dwg` after the 16 `flash` calls (svg.py lines 116-131): each call did
`dwg.add(a)` for both of its steps, in order. -/
noncomputable def dwgAfterFlashes : SVGDoc :=
  { staticDoc with elements := staticDoc.elements ++ scriptAnims.map Element.anim }

/-- Applying the loop of svg.py lines 133-134 to the document: every
animation object in `anims` is also an element of `dwg`, and the loop
mutates exactly those objects' `begin` attributes in place, so on the
document it rewrites every animation element and touches nothing else. -/
def rewriteElement (final_id : String) : Element → Element
  | .anim a => .anim (rewriteBegin final_id a)
  | e => e

/-- `dwg` as of the second save `dwg.saveas("cayley_active.svg")`
(svg.py line 136): the post-flash document with every animation's begin
attribute rewritten by the loop at lines 133-134. -/
noncomputable def dwgFinal (final_id : String) : SVGDoc :=
  { dwgAfterFlashes with
    elements := dwgAfterFlashes.elements.map (rewriteElement final_id) }

/-- The two `saveas` calls (svg.py lines 115 and 136), in order: filename and
the document state serialized there. These are the only serializations. -/
noncomputable def saves (final_id : String) : List (String × SVGDoc) :=
  [("cayley.svg", staticDoc), ("cayley_active.svg", dwgFinal final_id)]

/-- The line indices the script dereferences (`all_lines[...]` in svg.py
lines 117-130), in call order. -/
def usedLineIndices : List ℕ :=
  scriptCalls.filterMap fun c =>
    match c.1 with
    | .lineAt k => some k
    | _ => none

/-- The 4-color palette named by the spec: blue, red, green, yellow. -/
def palette : List String := [b, r, g, y]

/-- Substring containment: `needle` occurs contiguously inside `hay`. -/
def ContainsSub (needle hay : String) : Prop :=
  ∃ p s, hay = p ++ needle ++ s

/-- Strict lexicographic order on index pairs. -/
def pairLexLt (p q : ℕ × ℕ) : Prop :=
  p.1 < q.1 ∨ (p.1 = q.1 ∧ p.2 < q.2)

instance : DecidableRel pairLexLt := fun p q =>
  inferInstanceAs (Decidable (p.1 < q.1 ∨ (p.1 = q.1 ∧ p.2 < q.2)))

/-- C1: for every pair of ring-node indices (i, j) with i < j, the edge
selector includes an edge between ring nodes i and j exactly when none of the
skip rules fires (i == j; i mod 3 == j mod 3; (i mod 3, j mod 3) ∈
{(1,2),(2,1)}; (i,j) == (0,3)); an included edge carries the default stroke
color and width. -/
theorem ring_edge_selector_spec (i j : ℕ) (hij : i < j) (hj : j < 6) :
    ((i, j) ∈ ringEdgePairs ↔
      ¬(i = j ∨ i % 3 = j % 3 ∨ (i % 3 = 1 ∧ j % 3 = 2) ∨
        (i % 3 = 2 ∧ j % 3 = 1) ∨ (i = 0 ∧ j = 3))) ∧
    (mkRingLine i j).strokeColor = edge_color ∧
    (mkRingLine i j).strokeWidth = edge_stroke := by
  refine ⟨?_, rfl, rfl⟩
  have hi : i < 6 := hij.trans hj
  interval_cases i <;> interval_cases j <;> decide

/-- Witness for C1 at the concrete pair (0, 1). -/
theorem ring_edge_selector_spec_witness : (0, 1) ∈ ringEdgePairs :=
  ((ring_edge_selector_spec 0 1 (by decide) (by decide)).1).mpr (by decide)

/-- C2: every call `flash(element, orig_color, start, is_line)` registers
exactly two steps on the element's fill (stroke when is_line) property:
step A from orig_color to the highlight color g, beginning at start, lasting
1.0 s; step B from g back to orig_color, beginning at start + 1.0 s, lasting
1.2 s; and the call returns step B. -/
theorem flash_two_steps (e : TargetRef) (c : String) (t : ℕ) (li : Bool) :
    (flash e c t li).1 =
      [⟨if li then "stroke" else "fill", c, g, fmtBegin t, "1.0s", e⟩,
       ⟨if li then "stroke" else "fill", g, c, fmtBegin (t + 100), "1.2s", e⟩] ∧
    (flash e c t li).2 =
      ⟨if li then "stroke" else "fill", g, c, fmtBegin (t + 100), "1.2s", e⟩ ∧
    (flash e c t li).1.getLast? = some (flash e c t li).2 :=
  ⟨rfl, rfl, rfl⟩

/-- Witness for C2 at the script's first call `flash(left_circle, n, 0)`. -/
theorem flash_two_steps_witness :
    (flash .leftCircle n 0 false).1 =
      [⟨"fill", n, g, fmtBegin 0, "1.0s", .leftCircle⟩,
       ⟨"fill", g, n, fmtBegin 100, "1.2s", .leftCircle⟩] :=
  (flash_two_steps .leftCircle n 0 false).1

/-- C6: the edge collection is built in a fixed deterministic order: the fan
edge outer_left→ring[3], then outer_right→ring[0], then the included ring
pairs in ascending lexicographic order — concretely the fixed list
(0,1),(0,2),(0,4),(0,5),(1,3),(2,3),(3,4),(3,5). -/
theorem edge_collection_order :
    all_lines =
      (⟨outer_left, left, edge_color, edge_stroke⟩ : Line) ::
        (⟨outer_right, right, edge_color, edge_stroke⟩ : Line) ::
        ringEdgePairs.map (fun p => mkRingLine p.1 p.2) ∧
    left = ring_centers.getD 3 (0, 0) ∧
    right = ring_centers.getD 0 (0, 0) ∧
    ringEdgePairs = [(0, 1), (0, 2), (0, 4), (0, 5), (1, 3), (2, 3), (3, 4), (3, 5)] ∧
    List.Chain' pairLexLt ringEdgePairs := by
  refine ⟨rfl, rfl, rfl, by decide, ?_⟩
  have he : ringEdgePairs =
      [(0, 1), (0, 2), (0, 4), (0, 5), (1, 3), (2, 3), (3, 4), (3, 5)] := by decide
  rw [he]
  norm_num [List.chain'_cons, List.chain'_singleton, pairLexLt]

/-- C10: `all_lines` has exactly 10 elements (2 fan edges then 8 ring edges),
and every index the animation script dereferences into it is below 10. -/
theorem line_index_bounds :
    all_lines.length = 10 ∧
    ringEdgePairs.length = 8 ∧
    usedLineIndices = [0, 7, 3, 9, 5, 1, 0, 6, 4, 8, 2, 1] ∧
    usedLineIndices.all (fun k => decide (k < all_lines.length)) = true :=
  ⟨rfl, rfl, rfl, by decide⟩

/-- Rewriting an element's begin attribute does not change whether it is an
animation entry. -/
lemma isAnim_rewriteElement (fid : String) (e : Element) :
    (rewriteElement fid e).isAnim = e.isAnim := by
  cases e <;> rfl

/-- The begin-attribute rewrite pass preserves the animation-entry count. -/
lemma countAnims_map_rewriteElement (fid : String) (l : List Element) :
    countAnims (l.map (rewriteElement fid)) = countAnims l := by
  have h : (fun e => (rewriteElement fid e).isAnim) = Element.isAnim :=
    funext (isAnim_rewriteElement fid)
  simp [countAnims, List.filter_map, Function.comp_def, h]

/-- C4 counterexample: the claim's counts (15 invocations, 30 animation
entries in the animated output) are false of the source's call sequence. -/
theorem anim_count_counterexample :
    scriptCalls.length ≠ 15 ∧
    scriptAnims.length ≠ 30 ∧
    countAnims (dwgFinal "id1").elements ≠ 30 := by
  refine ⟨by decide, by decide, ?_⟩
  rw [dwgFinal, countAnims_map_rewriteElement]
  decide

/-- C4 (amended): the fixed authored call sequence makes exactly 16 flash
invocations of 2 steps each, so the animated output contains exactly 32
animation entries, and the static output (saved before any flash) contains
exactly 0. -/
theorem anim_count_amended (final_id : String) :
    scriptCalls.length = 16 ∧
    (∀ e c t li, ((flash e c t li).1).length = 2) ∧
    scriptAnims.length = 32 ∧
    countAnims (dwgFinal final_id).elements = 32 ∧
    countAnims staticDoc.elements = 0 := by
  refine ⟨rfl, fun e c t li => rfl, rfl, ?_, rfl⟩
  rw [dwgFinal, countAnims_map_rewriteElement]
  rfl

/-- Witness for the amended C4 at the concrete element id "idA". -/
theorem anim_count_amended_witness :
    countAnims (dwgFinal "idA").elements = 32 :=
  (anim_count_amended "idA").2.2.2.1

/-- C3: after scripting all flashes, the loop rewrites every registered
step's begin attribute from its absolute offset string to the chained string
old ++ "; " ++ final_id ++ ".end" ++ old, so every step's begin — including
the final step's, which is the last element of the anims list — contains the
final step's completion-event reference as a substring. -/
theorem begin_rewrite_every_step (final_id : String) :
    scriptAnims.getLast? = some finalStep ∧
    ∀ a ∈ scriptAnims,
      (∃ t, a.begin = fmtBegin t) ∧
      (rewriteBegin final_id a).begin =
        a.begin ++ "; " ++ final_id ++ ".end" ++ a.begin ∧
      ContainsSub (final_id ++ ".end") ((rewriteBegin final_id a).begin) := by
  refine ⟨rfl, fun a ha => ⟨?_, rfl, ?_⟩⟩
  · simp only [scriptAnims, List.mem_flatMap] at ha
    obtain ⟨c, _, hmem⟩ := ha
    simp only [flash, List.mem_cons, List.mem_singleton] at hmem
    rcases hmem with h | h | h
    · exact ⟨c.2.2.1, by rw [h]⟩
    · exact ⟨c.2.2.1 + 100, by rw [h]⟩
    · cases h
  · refine ⟨a.begin ++ "; ", a.begin, ?_⟩
    simp [rewriteBegin, String.append_assoc]

/-- Witness for C3 at the concrete id "id1" and the final step itself. -/
theorem begin_rewrite_every_step_witness :
    (rewriteBegin "id1" finalStep).begin =
      finalStep.begin ++ "; " ++ "id1" ++ ".end" ++ finalStep.begin :=
  (((begin_rewrite_every_step "id1").2 finalStep (by decide)).2).1

/-- C5: for every center and nonnegative radius, `center_list` produces
exactly 6 ring points, point i being
(cx + r·cos(2πi/6), cy − r·sin(2πi/6)), each at Euclidean distance r from
the center; and the two fan points are (cx − fan_dist, cy) and
(cx + fan_dist, cy). -/
theorem ring_geometry (c : ℝ × ℝ) (rad : ℝ) (hr : 0 ≤ rad) :
    (center_list c rad).length = 6 ∧
    (∀ i : ℕ, i < 6 →
      (center_list c rad).getD i (0, 0) =
        (c.1 + rad * Real.cos (2 * Real.pi * i / 6),
         c.2 - rad * Real.sin (2 * Real.pi * i / 6))) ∧
    (∀ p ∈ center_list c rad,
      Real.sqrt ((p.1 - c.1) ^ 2 + (p.2 - c.2) ^ 2) = rad) ∧
    outer_left = (center.1 - fan_dist, center.2) ∧
    outer_right = (center.1 + fan_dist, center.2) := by
  refine ⟨rfl, ?_, ?_, rfl, rfl⟩
  · intro i hi
    interval_cases i <;>
      simp [center_list, ring_point, List.range_succ] <;>
      constructor <;> ring
  · intro p hp
    simp only [center_list, List.mem_map, List.mem_range] at hp
    obtain ⟨i, _, rfl⟩ := hp
    simp only [ring_point]
    have key : (c.1 + Real.cos (2 * Real.pi * i / 6) * rad - c.1) ^ 2 +
        (c.2 - Real.sin (2 * Real.pi * i / 6) * rad - c.2) ^ 2 = rad ^ 2 := by
      have h := Real.sin_sq_add_cos_sq (2 * Real.pi * i / 6)
      linear_combination rad ^ 2 * h
    rw [key, Real.sqrt_sq hr]

/-- Witness for C5 at the source's concrete center (105, 65) and radius 50. -/
theorem ring_geometry_witness :
    (0 : ℝ) ≤ big_radius ∧ (center_list center big_radius).length = 6 :=
  ⟨by norm_num [big_radius], (ring_geometry center big_radius (by norm_num [big_radius])).1⟩

/-- C7: the 6 ring circles are filled, in fixed per-node order, with colors
drawn from the palette {b, r, g, y} and never with the green g; the fan
circles and all default edges use the neutral gray n; and in every flash the
transient highlight color is g. -/
theorem color_scheme :
    circle_elems.map Circle.fill = center_colors ∧
    center_colors.all (fun col => palette.contains col && col != g) = true ∧
    left_circle.fill = n ∧
    right_circle.fill = n ∧
    all_lines.map Line.strokeColor = List.replicate 10 n ∧
    n ≠ g ∧
    (∀ e c t li, ((flash e c t li).1.map AnimStep.toColor) = [g, c] ∧
      ((flash e c t li).1.map AnimStep.fromColor) = [c, g]) :=
  ⟨rfl, by decide, rfl, rfl, rfl, by decide, fun e c t li => ⟨rfl, rfl⟩⟩

/-- C8: the drawing is created with canvas size 210 × 130, and both saved
output documents carry that size. -/
theorem canvas_210_130 (final_id : String) :
    staticDoc.size = (210, 130) ∧
    (dwgFinal final_id).size = (210, 130) ∧
    (saves final_id).map (fun s => s.2.size) = [(210, 130), (210, 130)] :=
  ⟨rfl, rfl, rfl⟩

/-- Witness for C8 at the concrete element id "idB". -/
theorem canvas_210_130_witness : (dwgFinal "idB").size = (210, 130) :=
  (canvas_210_130 "idB").2.1

/-- The non-animation elements of the static document are unchanged by the
begin-rewrite pass. -/
lemma static_elements_map_rewrite (fid : String) :
    staticDoc.elements.map (rewriteElement fid) = staticDoc.elements := rfl

/-- A list of animation elements contains no non-animation element. -/
lemma filter_not_isAnim_map_anim (l : List AnimStep) :
    (l.map Element.anim).filter (fun e => !e.isAnim) = [] := by
  induction l with
  | nil => rfl
  | cons a t ih => simp [Element.isAnim, ih]

/-- C9: the document is serialized exactly twice — the static save before any
animation is registered (0 animation entries) and the animated save after —
and the animated document is exactly the static document's elements followed
by the added (rewritten) animation entries; its non-animation elements are
exactly the static elements, unchanged. -/
theorem saved_twice_superset (final_id : String) :
    (saves final_id).length = 2 ∧
    (saves final_id).map Prod.fst = ["cayley.svg", "cayley_active.svg"] ∧
    staticDoc.elements.filter Element.isAnim = [] ∧
    (dwgFinal final_id).elements =
      staticDoc.elements ++
        (scriptAnims.map (rewriteBegin final_id)).map Element.anim ∧
    (dwgFinal final_id).elements.filter (fun e => !e.isAnim) =
      staticDoc.elements := by
  have hmm : ∀ a : AnimStep,
      rewriteElement final_id (Element.anim a) =
        Element.anim (rewriteBegin final_id a) := fun a => rfl
  have helems : (dwgFinal final_id).elements =
      staticDoc.elements ++
        (scriptAnims.map (rewriteBegin final_id)).map Element.anim := by
    simp [dwgFinal, dwgAfterFlashes, List.map_append, List.map_map,
      Function.comp_def, hmm, static_elements_map_rewrite]
  refine ⟨rfl, rfl, rfl, helems, ?_⟩
  rw [helems, List.filter_append, filter_not_isAnim_map_anim,
    List.append_nil]
  rfl

/-- Witness for C9 at the concrete element id "idC". -/
theorem saved_twice_superset_witness : (saves "idC").length = 2 :=
  (saved_twice_superset "idC").1

end CayleySVG
